import Mathlib

/-!
Verification of the OCIPanel background orchestration layer: the recurring
retry scheduler (`internal/services/task_service.go`), the Telegram control
loop (`internal/services/telegram_service.go`) and the bot configuration
controller (`internal/controllers/telegram_controller.go`), shallowly
embedded as executable Lean definitions with explicit state passing.
-/

namespace OCIPanel

/-! ## Error-message extraction (`extractOCIErrorMessage`)

The Go code applies the regexp `Message:\s*([^.]+)` to the raw error text
and returns the first capture when the pattern matches (and the capture is
non-empty), falling back to the raw text.  We model the Go regexp engine's
leftmost-first backtracking search for this particular pattern directly:
starting positions are tried left to right; at a position where the literal
marker matches, the tail matcher tries the greedy whitespace run first and
backtracks one character at a time. -/

/-- Whitespace characters matched by the Go regexp class in ASCII mode. -/
def isGoSpace (c : Char) : Bool :=
  c = ' ' || c = '\t' || c = '\n' || c = '\x0c' || c = '\r'

/-- The literal marker of the pattern, as a character list. -/
def messageMarker : List Char := ['M', 'e', 's', 's', 'a', 'g', 'e', ':']

/-- Backtracking tail matcher for the pattern suffix after the literal
marker: with the whitespace run consumed down to position `k` of `t`, the
capture group takes the maximal non-period run; failing that, the
whitespace consumption backtracks one character. -/
def tryCapture (t : List Char) : Nat → Option (List Char)
  | 0 =>
    let cap := t.takeWhile (fun c => c ≠ '.')
    if cap.isEmpty then none else some cap
  | k + 1 =>
    let cap := (t.drop (k + 1)).takeWhile (fun c => c ≠ '.')
    if cap.isEmpty then tryCapture t k else some cap

/-- Leftmost-first scan: at each position where the marker is a literal
match, attempt the tail; on tail failure continue at the next position. -/
def findMessageCapture : List Char → Option (List Char)
  | [] => none
  | c :: rest =>
    if messageMarker.isPrefixOf (c :: rest) then
      let t := (c :: rest).drop messageMarker.length
      match tryCapture t (t.takeWhile isGoSpace).length with
      | some cap => some cap
      | none => findMessageCapture rest
    else
      findMessageCapture rest

/-- Literal-substring test for the marker (whether "Message:" occurs at
all in the text). -/
def hasMarker : List Char → Bool
  | [] => false
  | c :: rest => messageMarker.isPrefixOf (c :: rest) || hasMarker rest

/-- Model of `extractOCIErrorMessage`: `none` stands for a nil Go error;
on a match the first (non-empty) capture is returned, otherwise the raw
error text. -/
def extractOCIErrorMessage (err : Option String) : String :=
  match err with
  | none => ""
  | some errStr =>
    match findMessageCapture errStr.toList with
    | some cap => if (String.mk cap) ≠ "" then String.mk cap else errStr
    | none => errStr

theorem tryCapture_ne_nil {t : List Char} {k : Nat} {cap : List Char}
    (h : tryCapture t k = some cap) : cap ≠ [] := by
  induction k with
  | zero =>
    simp only [tryCapture] at h
    split at h
    · exact absurd h (by simp)
    · next hne =>
      cases h
      simpa [List.isEmpty_iff] using hne
  | succ k ih =>
    simp only [tryCapture] at h
    split at h
    · exact ih h
    · next hne =>
      cases h
      simpa [List.isEmpty_iff] using hne

theorem findMessageCapture_ne_nil {l cap : List Char}
    (h : findMessageCapture l = some cap) : cap ≠ [] := by
  induction l with
  | nil => simp [findMessageCapture] at h
  | cons c rest ih =>
    simp only [findMessageCapture] at h
    split at h
    · split at h
      · next m hm =>
        cases h
        exact tryCapture_ne_nil hm
      · exact ih h
    · exact ih h

theorem findMessageCapture_eq_none_of_no_marker {l : List Char}
    (h : hasMarker l = false) : findMessageCapture l = none := by
  induction l with
  | nil => simp [findMessageCapture]
  | cons c rest ih =>
    simp only [hasMarker, Bool.or_eq_false_iff] at h
    simp only [findMessageCapture, h.1, if_false]
    exact ih h.2

theorem extractOCIErrorMessage_ne_empty {s : String} (h : s ≠ "") :
    extractOCIErrorMessage (some s) ≠ "" := by
  simp only [extractOCIErrorMessage]
  split
  · next cap hcap =>
    split
    · next hne => exact hne
    · exact h
  · exact h

/-- C2: the message-extraction step returns the first capture of the
pattern `Message:\s*([^.]+)` (the first fragment after a "Message:"
marker, stopping at the first period) when the pattern matches, and the
full raw error text when the marker is absent; it never produces an empty
message for a non-empty error.  Raw "boom" yields "boom"; raw
"rpc failed. Message: quota exceeded. code: 42" yields "quota exceeded". -/
theorem extractOCIErrorMessage_spec :
    (∀ s : String, s ≠ "" → extractOCIErrorMessage (some s) ≠ "") ∧
    (∀ s : String, hasMarker s.toList = false → extractOCIErrorMessage (some s) = s) ∧
    (∀ (s : String) (cap : List Char), findMessageCapture s.toList = some cap →
      extractOCIErrorMessage (some s) = String.mk cap) ∧
    extractOCIErrorMessage (some "boom") = "boom" ∧
    extractOCIErrorMessage
      (some "rpc failed. Message: quota exceeded. code: 42") = "quota exceeded" := by
  refine ⟨fun s h => extractOCIErrorMessage_ne_empty h, fun s h => ?_,
    fun s cap h => ?_, by decide, by decide⟩
  · have h' : findMessageCapture s.data = none := by
      simpa [String.toList] using findMessageCapture_eq_none_of_no_marker h
    simp [extractOCIErrorMessage, h']
  · have hne : cap ≠ [] := findMessageCapture_ne_nil h
    have h' : findMessageCapture s.data = some cap := by simpa [String.toList] using h
    simp [extractOCIErrorMessage, h', String.ext_iff, hne]

theorem extractOCIErrorMessage_spec_witness :
    extractOCIErrorMessage (some "boom") ≠ "" ∧
    extractOCIErrorMessage (some "zzz") = "zzz" :=
  ⟨extractOCIErrorMessage_spec.1 "boom" (by decide),
   extractOCIErrorMessage_spec.2.1 "zzz" (by decide)⟩

/-! ## Task scheduler data model (`task_service.go`)

`OciCreateTask`, `OciUser`, `SSHKey` and `TaskLog` carry exactly the
fields the scheduler reads or writes; the database is modelled as lists of
records queried by identifier with `find?` (GORM `First`) and upserted by
primary key (GORM `Save`).  A Go `time.Timer` handle is modelled by the
interval it was armed with and whether it is still armed: `time.AfterFunc`
arms it, firing disarms it, `Stop` plus map deletion removes it.  The
timer table `taskTimers` is a raw association list so that the
one-timer-per-task invariant is a real property of the operations. -/

structure OciCreateTask where
  id : String
  userID : String
  sshKeyID : String
  interval : Int
  status : String
  executeCount : Nat
  successCount : Nat
  lastMessage : String
  lastExecuteTime : Option Nat
deriving DecidableEq

structure OciUser where
  id : String
deriving DecidableEq

structure SSHKey where
  id : String
  publicKey : String
deriving DecidableEq

structure TaskLog where
  taskID : String
  status : String
  message : String
  executeTime : Nat
deriving DecidableEq

structure DB where
  tasks : List OciCreateTask
  users : List OciUser
  sshKeys : List SSHKey
  logs : List TaskLog
deriving DecidableEq

structure GoTimer where
  interval : Int
  armed : Bool
deriving DecidableEq

structure TaskServiceState where
  db : DB
  taskTimers : List (String × GoTimer)
  running : Bool
deriving DecidableEq

/-- Record-store lookup of a task by identifier (`db.Where("id = ?", ...).First`). -/
def findTask (db : DB) (taskID : String) : Option OciCreateTask :=
  db.tasks.find? (fun t => t.id == taskID)

def findUser (db : DB) (userID : String) : Option OciUser :=
  db.users.find? (fun u => u.id == userID)

def findSSHKey (db : DB) (keyID : String) : Option SSHKey :=
  db.sshKeys.find? (fun k => k.id == keyID)

/-- Primary-key upsert of a task record (GORM `db.Save(&task)`). -/
def saveTask (db : DB) (t : OciCreateTask) : DB :=
  if (db.tasks.find? (fun x => x.id == t.id)).isSome then
    { db with tasks := db.tasks.map (fun x => if x.id == t.id then t else x) }
  else
    { db with tasks := db.tasks ++ [t] }

/-- Model of `logTaskExecution`: append one execution-log record. -/
def logTaskExecution (db : DB) (taskID status message : String) (now : Nat) : DB :=
  { db with logs := db.logs ++ [⟨taskID, status, message, now⟩] }

/-- Interval clamp of `scheduleTask`: the configured interval in seconds,
floored at 10 seconds. -/
def clampInterval (i : Int) : Int :=
  if i < 10 then 10 else i

/-- Model of `scheduleTask`: stop and drop any existing timer for the task's
identifier, then register a fresh armed timer at the clamped interval. -/
def scheduleTask (st : TaskServiceState) (task : OciCreateTask) : TaskServiceState :=
  { st with taskTimers :=
      st.taskTimers.filter (fun p => !(p.1 == task.id)) ++
        [(task.id, ⟨clampInterval task.interval, true⟩)] }

/-- Model of `removeTaskTimer`: stop and delete the timer registered for the
identifier, if any. -/
def removeTaskTimer (st : TaskServiceState) (taskID : String) : TaskServiceState :=
  { st with taskTimers := st.taskTimers.filter (fun p => !(p.1 == taskID)) }

/-- A timer expiry consumes the armed state of the task's timer handle
(the handle itself stays in the table until replaced or removed). -/
def disarmTimer (st : TaskServiceState) (taskID : String) : TaskServiceState :=
  { st with taskTimers :=
      st.taskTimers.map (fun p => if p.1 == taskID then (p.1, ⟨p.2.interval, false⟩) else p) }

def lookupTimer (st : TaskServiceState) (taskID : String) : Option GoTimer :=
  (st.taskTimers.find? (fun p => p.1 == taskID)).map Prod.snd

/-- Holds (as `true`) exactly when an armed timer is registered for the identifier,
i.e. the task has a pending future firing. -/
def armedTimerFor (st : TaskServiceState) (taskID : String) : Bool :=
  st.taskTimers.any (fun p => p.1 == taskID && p.2.armed)

/-- Messages recorded by the scheduler, as in the Go source. -/
def userMissingMsg : String := "配置不存在: record not found"

def sshKeyMissingMsg : String := "SSH密钥不存在: record not found"

def taskSuccessMsg : String := "创建成功"

/-- Tail of `executeTask` once account and credential resolved: bump the
execution counter and stamp the execution time, branch on the provisioning
outcome (`provisionErr` is the result of `CreateInstance`), persist, then
re-arm or retire the timer depending on the task's status. -/
def executeTaskAttempt (st : TaskServiceState) (taskID : String) (task : OciCreateTask)
    (provisionErr : Option String) (now : Nat) : TaskServiceState :=
  let t1 : OciCreateTask :=
    { task with executeCount := task.executeCount + 1, lastExecuteTime := some now }
  match provisionErr with
  | some e =>
    let msg := extractOCIErrorMessage (some e)
    let t2 : OciCreateTask := { t1 with lastMessage := msg }
    let st2 : TaskServiceState :=
      { st with db := saveTask (logTaskExecution st.db taskID "error" msg now) t2 }
    if t2.status == "running" then scheduleTask st2 t2 else removeTaskTimer st2 taskID
  | none =>
    let t2 : OciCreateTask :=
      { t1 with successCount := t1.successCount + 1, lastMessage := taskSuccessMsg,
                status := "completed" }
    let st2 : TaskServiceState :=
      { st with db := saveTask (logTaskExecution st.db taskID "success" "实例创建成功" now) t2 }
    if t2.status == "running" then scheduleTask st2 t2 else removeTaskTimer st2 taskID

/-- Body of `executeTask` after the task re-read succeeded. -/
def executeTaskFound (st : TaskServiceState) (taskID : String) (task : OciCreateTask)
    (provisionErr : Option String) (now : Nat) : TaskServiceState :=
  if task.status ≠ "running" then st
  else
    match findUser st.db task.userID with
    | none => { st with db := logTaskExecution st.db taskID "error" userMissingMsg now }
    | some _ =>
      match findSSHKey st.db task.sshKeyID with
      | none => { st with db := logTaskExecution st.db taskID "error" sshKeyMissingMsg now }
      | some _ => executeTaskAttempt st taskID task provisionErr now

/-- Model of `executeTask`: re-read the task by identifier; abort silently when it
is gone or no longer `running`; resolve account and credential, logging
and returning on failure; otherwise run one provisioning attempt. -/
def executeTask (st : TaskServiceState) (taskID : String)
    (provisionErr : Option String) (now : Nat) : TaskServiceState :=
  match findTask st.db taskID with
  | none => st
  | some task => executeTaskFound st taskID task provisionErr now

/-- One firing of a task's timer: the timer's armed state is consumed,
then the `executeTask` callback runs. -/
def fireTimer (st : TaskServiceState) (taskID : String)
    (provisionErr : Option String) (now : Nat) : TaskServiceState :=
  executeTask (disarmTimer st taskID) taskID provisionErr now

/-- Model of `ExecuteTaskOnce`: the one-shot execution path; returns the new state
and the error returned to the caller (`none` for success). -/
def executeTaskOnce (st : TaskServiceState) (taskID : String)
    (provisionErr : Option String) (now : Nat) : TaskServiceState × Option String :=
  match findTask st.db taskID with
  | none => (st, some "任务不存在: record not found")
  | some task =>
    match findUser st.db task.userID with
    | none =>
      ({ st with db := logTaskExecution st.db taskID "error" userMissingMsg now },
       some userMissingMsg)
    | some _ =>
      match findSSHKey st.db task.sshKeyID with
      | none =>
        ({ st with db := logTaskExecution st.db taskID "error" sshKeyMissingMsg now },
         some sshKeyMissingMsg)
      | some _ =>
        let t1 : OciCreateTask :=
          { task with executeCount := task.executeCount + 1, lastExecuteTime := some now }
        match provisionErr with
        | some e =>
          let msg := extractOCIErrorMessage (some e)
          let t2 : OciCreateTask := { t1 with lastMessage := msg, status := "error" }
          ({ st with db := saveTask (logTaskExecution st.db taskID "error" msg now) t2 },
           some msg)
        | none =>
          let t2 : OciCreateTask :=
            { t1 with successCount := t1.successCount + 1, status := "completed",
                      lastMessage := taskSuccessMsg }
          ({ st with db := saveTask (logTaskExecution st.db taskID "success" taskSuccessMsg now) t2 },
           none)

/-- Model of `loadAndStartTasks`: register a timer for every persisted task whose
status is `running`. -/
def loadAndStartTasks (st : TaskServiceState) : TaskServiceState :=
  (st.db.tasks.filter (fun t => t.status == "running")).foldl scheduleTask st

/-- Model of `Start`: idempotent scheduler startup. -/
def startService (st : TaskServiceState) : TaskServiceState :=
  if st.running then st else loadAndStartTasks { st with running := true }

/-- Model of `Stop`: stop every timer and clear the table; idempotent; persisted
task status untouched. -/
def stopService (st : TaskServiceState) : TaskServiceState :=
  if st.running then { st with running := false, taskTimers := [] } else st

/-- Model of `AddTask`: persist the new record (failing on a duplicate
identifier), then register a timer when it starts out `running`. -/
def addTask (st : TaskServiceState) (task : OciCreateTask) : TaskServiceState :=
  if (findTask st.db task.id).isSome then st
  else
    let st2 : TaskServiceState := { st with db := { st.db with tasks := st.db.tasks ++ [task] } }
    if task.status == "running" then scheduleTask st2 task else st2

/-- Model of `StartTask`: re-read the task, flip it to `running`, persist, and
register a timer. -/
def startTask (st : TaskServiceState) (taskID : String) : TaskServiceState :=
  match findTask st.db taskID with
  | none => st
  | some task =>
    let t2 : OciCreateTask := { task with status := "running" }
    scheduleTask { st with db := saveTask st.db t2 } t2

/-- Model of `StopTask`: persist status `stopped` on the matching record, then
cancel and remove the timer. -/
def stopTask (st : TaskServiceState) (taskID : String) : TaskServiceState :=
  let newTasks :=
    st.db.tasks.map (fun t => if t.id == taskID then { t with status := "stopped" } else t)
  removeTaskTimer { st with db := { st.db with tasks := newTasks } } taskID

/-- Model of `DeleteTask`: cancel the timer first, then purge the task's logs and
the task record. -/
def deleteTask (st : TaskServiceState) (taskID : String) : TaskServiceState :=
  let st2 := removeTaskTimer st taskID
  { st2 with db := { st2.db with
      logs := st2.db.logs.filter (fun l => !(l.taskID == taskID)),
      tasks := st2.db.tasks.filter (fun t => !(t.id == taskID)) } }

/-- One scheduler-facing event: a lifecycle call, a task-management call,
or a timer expiry. -/
inductive SchedOp where
  | startSvc : SchedOp
  | stopSvc : SchedOp
  | add (task : OciCreateTask) : SchedOp
  | startT (taskID : String) : SchedOp
  | stopT (taskID : String) : SchedOp
  | deleteT (taskID : String) : SchedOp
  | fire (taskID : String) (provisionErr : Option String) (now : Nat) : SchedOp

def applyOp (st : TaskServiceState) : SchedOp → TaskServiceState
  | .startSvc => startService st
  | .stopSvc => stopService st
  | .add task => addTask st task
  | .startT taskID => startTask st taskID
  | .stopT taskID => stopTask st taskID
  | .deleteT taskID => deleteTask st taskID
  | .fire taskID e now => fireTimer st taskID e now

/-! ## Helper lemmas on the timer table and the record store -/

theorem find?_filter_ne_self (l : List (String × GoTimer)) (taskID : String) :
    (l.filter (fun p => !(p.1 == taskID))).find? (fun p => p.1 == taskID) = none := by
  induction l with
  | nil => simp
  | cons a l ih =>
    by_cases h : a.1 = taskID
    · simp [List.filter_cons, h, ih]
    · simp [List.filter_cons, h, List.find?_cons, ih]

theorem lookupTimer_scheduleTask_self (st : TaskServiceState) (task : OciCreateTask) :
    lookupTimer (scheduleTask st task) task.id =
      some ⟨clampInterval task.interval, true⟩ := by
  simp [lookupTimer, scheduleTask, List.find?_append, find?_filter_ne_self]

theorem lookupTimer_removeTaskTimer_self (st : TaskServiceState) (taskID : String) :
    lookupTimer (removeTaskTimer st taskID) taskID = none := by
  simp [lookupTimer, removeTaskTimer, find?_filter_ne_self]

theorem map_disarm_eq_self (l : List (String × GoTimer)) (taskID : String)
    (hl : ∀ p ∈ l, (p.1 == taskID) = false) :
    l.map (fun p => if p.1 == taskID then (p.1, (⟨p.2.interval, false⟩ : GoTimer)) else p) =
      l := by
  induction l with
  | nil => rfl
  | cons a l ih =>
    have ha := hl a (List.mem_cons_self a l)
    simp only [List.map_cons, ha, Bool.false_eq_true, if_false]
    rw [ih (fun p hp => hl p (List.mem_cons_of_mem a hp))]

theorem disarmTimer_eq_self (st : TaskServiceState) (taskID : String)
    (h : lookupTimer st taskID = none) : disarmTimer st taskID = st := by
  have h0 : st.taskTimers.find? (fun p => p.1 == taskID) = none := by
    simp only [lookupTimer] at h
    exact Option.map_eq_none'.mp h
  have hmem : ∀ p ∈ st.taskTimers, (p.1 == taskID) = false := by
    intro p hp
    have := List.find?_eq_none.mp h0 p hp
    simpa using this
  simp only [disarmTimer]
  rw [map_disarm_eq_self st.taskTimers taskID hmem]

theorem find?_map_replace (l : List OciCreateTask) (taskID : String) (a b : OciCreateTask)
    (hfind : l.find? (fun t => t.id == taskID) = some a) (hb : b.id = taskID) :
    (l.map (fun x => if x.id == taskID then b else x)).find? (fun t => t.id == taskID) =
      some b := by
  induction l with
  | nil => simp at hfind
  | cons c l ih =>
    by_cases h : c.id = taskID
    · have hc : (c.id == taskID) = true := by simpa using h
      have hb' : (b.id == taskID) = true := by simpa using hb
      simp [List.find?, hc, hb']
    · have hc : (c.id == taskID) = false := by simpa using h
      simp only [List.find?, hc] at hfind
      simp only [List.map_cons, hc, Bool.false_eq_true, if_false, List.find?, hc]
      exact ih hfind

theorem saveTask_found (db : DB) (taskID : String) (a b : OciCreateTask)
    (hfind : findTask db taskID = some a) (hb : b.id = taskID) :
    saveTask db b =
      { db with tasks := db.tasks.map (fun x => if x.id == taskID then b else x) } := by
  have hfind' : db.tasks.find? (fun t => t.id == taskID) = some a := by
    simpa [findTask] using hfind
  simp [saveTask, hb, hfind']

theorem findTask_saveTask (db : DB) (taskID : String) (a b : OciCreateTask)
    (hfind : findTask db taskID = some a) (hb : b.id = taskID) :
    findTask (saveTask db b) taskID = some b := by
  have hfind' : db.tasks.find? (fun t => t.id == taskID) = some a := by
    simpa [findTask] using hfind
  rw [saveTask_found db taskID a b hfind hb]
  exact find?_map_replace db.tasks taskID a b hfind' hb

theorem findTask_id (db : DB) (taskID : String) (a : OciCreateTask)
    (hfind : findTask db taskID = some a) : a.id = taskID := by
  have hfind' : db.tasks.find? (fun t => t.id == taskID) = some a := by
    simpa [findTask] using hfind
  have := List.find?_some hfind'
  simpa using this

/-- Task record after one failing recurring firing. -/
def failedTaskStep (t : OciCreateTask) (msg : String) (now : Nat) : OciCreateTask :=
  { t with executeCount := t.executeCount + 1, lastExecuteTime := some now,
           lastMessage := msg }

theorem fireTimer_fail_step (st : TaskServiceState) (taskID : String)
    (task : OciCreateTask) (e : String) (now : Nat)
    (hfind : findTask st.db taskID = some task)
    (hstat : task.status = "running")
    (hu : (findUser st.db task.userID).isSome)
    (hk : (findSSHKey st.db task.sshKeyID).isSome) :
    findTask (fireTimer st taskID (some e) now).db taskID =
      some (failedTaskStep task (extractOCIErrorMessage (some e)) now) ∧
    (fireTimer st taskID (some e) now).db.users = st.db.users ∧
    (fireTimer st taskID (some e) now).db.sshKeys = st.db.sshKeys ∧
    (fireTimer st taskID (some e) now).db.logs =
      st.db.logs ++ [⟨taskID, "error", extractOCIErrorMessage (some e), now⟩] ∧
    lookupTimer (fireTimer st taskID (some e) now) taskID =
      some ⟨clampInterval task.interval, true⟩ := by
  obtain ⟨u, hu'⟩ := Option.isSome_iff_exists.mp hu
  obtain ⟨k, hk'⟩ := Option.isSome_iff_exists.mp hk
  have hid : task.id = taskID := findTask_id st.db taskID task hfind
  set msg := extractOCIErrorMessage (some e) with hmsg
  set t2 : OciCreateTask := failedTaskStep task msg now with ht2
  have hdb : (disarmTimer st taskID).db = st.db := rfl
  have hstat' : ¬task.status ≠ "running" := by simp [hstat]
  have hcond : (task.status == "running") = true := by simp [hstat]
  have hunfold : fireTimer st taskID (some e) now =
      scheduleTask
        { disarmTimer st taskID with
          db := saveTask (logTaskExecution st.db taskID "error" msg now) t2 } t2 := by
    simp only [fireTimer, executeTask, hdb, hfind, executeTaskFound, hstat', if_false,
      hu', hk', executeTaskAttempt]
    rw [if_pos hcond]
    rfl
  have hlogfind : findTask (logTaskExecution st.db taskID "error" msg now) taskID =
      some task := hfind
  have ht2id : t2.id = taskID := hid
  refine ⟨?_, ?_, ?_, ?_, ?_⟩
  · rw [hunfold]
    show findTask (saveTask (logTaskExecution st.db taskID "error" msg now) t2) taskID =
      some t2
    exact findTask_saveTask _ taskID task t2 hlogfind ht2id
  · rw [hunfold]
    show (saveTask (logTaskExecution st.db taskID "error" msg now) t2).users = st.db.users
    simp [saveTask, logTaskExecution]
    split <;> rfl
  · rw [hunfold]
    show (saveTask (logTaskExecution st.db taskID "error" msg now) t2).sshKeys = st.db.sshKeys
    simp [saveTask, logTaskExecution]
    split <;> rfl
  · rw [hunfold]
    show (saveTask (logTaskExecution st.db taskID "error" msg now) t2).logs =
      st.db.logs ++ [⟨taskID, "error", msg, now⟩]
    simp [saveTask, logTaskExecution]
    split <;> rfl
  · rw [hunfold]
    have := lookupTimer_scheduleTask_self
      { disarmTimer st taskID with
        db := saveTask (logTaskExecution st.db taskID "error" msg now) t2 } t2
    rw [ht2id] at this
    simpa [ht2, failedTaskStep] using this

/-- Task record after one successful recurring firing. -/
def succeededTask (t : OciCreateTask) (now : Nat) : OciCreateTask :=
  { t with executeCount := t.executeCount + 1, lastExecuteTime := some now,
           successCount := t.successCount + 1, lastMessage := taskSuccessMsg,
           status := "completed" }

theorem fireTimer_success_step (st : TaskServiceState) (taskID : String)
    (task : OciCreateTask) (now : Nat)
    (hfind : findTask st.db taskID = some task)
    (hstat : task.status = "running")
    (hu : (findUser st.db task.userID).isSome)
    (hk : (findSSHKey st.db task.sshKeyID).isSome) :
    findTask (fireTimer st taskID none now).db taskID = some (succeededTask task now) ∧
    (fireTimer st taskID none now).db.logs =
      st.db.logs ++ [⟨taskID, "success", "实例创建成功", now⟩] ∧
    lookupTimer (fireTimer st taskID none now) taskID = none := by
  obtain ⟨u, hu'⟩ := Option.isSome_iff_exists.mp hu
  obtain ⟨k, hk'⟩ := Option.isSome_iff_exists.mp hk
  have hid : task.id = taskID := findTask_id st.db taskID task hfind
  set t2 : OciCreateTask := succeededTask task now with ht2
  have hdb : (disarmTimer st taskID).db = st.db := rfl
  have hstat' : ¬task.status ≠ "running" := by simp [hstat]
  have hcond : (("completed" : String) == "running") = false := by decide
  have hunfold : fireTimer st taskID none now =
      removeTaskTimer
        { disarmTimer st taskID with
          db := saveTask (logTaskExecution st.db taskID "success" "实例创建成功" now) t2 }
        taskID := by
    simp only [fireTimer, executeTask, hdb, hfind, executeTaskFound, hstat', if_false,
      hu', hk', executeTaskAttempt]
    rw [if_neg (by simp)]
    rfl
  have hlogfind : findTask (logTaskExecution st.db taskID "success" "实例创建成功" now) taskID =
      some task := hfind
  have ht2id : t2.id = taskID := hid
  refine ⟨?_, ?_, ?_⟩
  · rw [hunfold]
    show findTask (saveTask (logTaskExecution st.db taskID "success" "实例创建成功" now) t2)
      taskID = some t2
    exact findTask_saveTask _ taskID task t2 hlogfind ht2id
  · rw [hunfold]
    show (saveTask (logTaskExecution st.db taskID "success" "实例创建成功" now) t2).logs =
      st.db.logs ++ [⟨taskID, "success", "实例创建成功", now⟩]
    simp [saveTask, logTaskExecution]
    split <;> rfl
  · rw [hunfold]
    exact lookupTimer_removeTaskTimer_self _ taskID

/-! ## C1: firing with a missing account or credential -/

/-- A running task whose owning account reference (`userID = "u1"`) does
not resolve: the `users` table is empty. -/
def orphanTask : OciCreateTask :=
  ⟨"t1", "u1", "k1", 60, "running", 0, 0, "", none⟩

def orphanState : TaskServiceState :=
  ⟨⟨[orphanTask], [], [], []⟩, [("t1", ⟨60, true⟩)], true⟩

/-- C1 (code_bug evaluation): when account resolution fails during a
recurring firing of a `running` task, the code logs an error entry and
leaves the status `running`, but returns without re-arming a timer: after
the firing no armed timer exists for the task, so it is never attempted
again, contradicting the claimed (and spec-intended) re-arm in this
branch. -/
theorem executeTask_resolution_failure_drops_timer :
    (fireTimer orphanState "t1" (some "boom") 5).db.tasks = [orphanTask] ∧
    orphanTask.status = "running" ∧
    (fireTimer orphanState "t1" (some "boom") 5).db.logs =
      [⟨"t1", "error", userMissingMsg, 5⟩] ∧
    armedTimerFor (fireTimer orphanState "t1" (some "boom") 5) "t1" = false := by
  decide

/-! ## C7: the interval floor -/

/-- C7: the interval a timer is registered with is the configured
interval when that is at least 10 seconds and exactly 10 seconds
otherwise; in particular a task configured with interval 1 second is
scheduled at 10 seconds. -/
theorem scheduleTask_interval_floor (st : TaskServiceState) (task : OciCreateTask) :
    lookupTimer (scheduleTask st task) task.id =
      some ⟨(if 10 ≤ task.interval then task.interval else 10), true⟩ ∧
    lookupTimer (scheduleTask st { task with interval := 1 }) task.id =
      some ⟨10, true⟩ := by
  have hclamp : ∀ i : Int, clampInterval i = if 10 ≤ i then i else 10 := by
    intro i
    unfold clampInterval
    split <;> split <;> omega
  constructor
  · rw [← hclamp]
    exact lookupTimer_scheduleTask_self st task
  · have := lookupTimer_scheduleTask_self st { task with interval := 1 }
    simpa [clampInterval] using this

theorem executeTask_not_running (st : TaskServiceState) (taskID : String)
    (t : OciCreateTask) (e : Option String) (now : Nat)
    (hfind : findTask st.db taskID = some t) (h : t.status ≠ "running") :
    executeTask st taskID e now = st := by
  unfold executeTask
  rw [hfind]
  show executeTaskFound st taskID t e now = st
  unfold executeTaskFound
  rw [if_pos h]

theorem fireTimer_noop (st : TaskServiceState) (taskID : String)
    (t : OciCreateTask) (e : Option String) (now : Nat)
    (htimer : lookupTimer st taskID = none)
    (hfind : findTask st.db taskID = some t) (h : t.status ≠ "running") :
    fireTimer st taskID e now = st := by
  unfold fireTimer
  rw [disarmTimer_eq_self st taskID htimer]
  exact executeTask_not_running st taskID t e now hfind h

/-! ## C4: a successful recurring firing retires the task -/

/-- C4: a recurring firing whose provisioning attempt succeeds sets the
task's status to `completed`, increments the success counter, appends a
success log entry, and removes the task's timer without re-arming it; a
subsequent firing for that task is a no-op, so no further firings have
any effect. -/
theorem fireTimer_success_retires (st : TaskServiceState) (taskID : String)
    (task : OciCreateTask) (now : Nat)
    (hfind : findTask st.db taskID = some task)
    (hstat : task.status = "running")
    (hu : (findUser st.db task.userID).isSome)
    (hk : (findSSHKey st.db task.sshKeyID).isSome) :
    ∃ t2, findTask (fireTimer st taskID none now).db taskID = some t2 ∧
      t2.status = "completed" ∧
      t2.successCount = task.successCount + 1 ∧
      (fireTimer st taskID none now).db.logs =
        st.db.logs ++ [⟨taskID, "success", "实例创建成功", now⟩] ∧
      lookupTimer (fireTimer st taskID none now) taskID = none ∧
      (∀ (e2 : Option String) (now2 : Nat),
        fireTimer (fireTimer st taskID none now) taskID e2 now2 =
          fireTimer st taskID none now) := by
  obtain ⟨hfind', hlogs, htimer⟩ := fireTimer_success_step st taskID task now hfind hstat hu hk
  refine ⟨succeededTask task now, hfind', rfl, rfl, hlogs, htimer, ?_⟩
  intro e2 now2
  exact fireTimer_noop _ taskID (succeededTask task now) e2 now2 htimer hfind'
    (by simp [succeededTask])

def demoUser : OciUser := ⟨"u1"⟩

def demoKey : SSHKey := ⟨"k1", "ssh-rsa AAA"⟩

def demoTask : OciCreateTask :=
  ⟨"t1", "u1", "k1", 30, "running", 0, 0, "", none⟩

def demoState : TaskServiceState :=
  ⟨⟨[demoTask], [demoUser], [demoKey], []⟩, [("t1", ⟨30, true⟩)], true⟩

theorem fireTimer_success_retires_witness :
    findTask demoState.db "t1" = some demoTask ∧
    demoTask.status = "running" ∧
    ∃ t2, findTask (fireTimer demoState "t1" none 9).db "t1" = some t2 ∧
      t2.status = "completed" ∧
      t2.successCount = demoTask.successCount + 1 ∧
      (fireTimer demoState "t1" none 9).db.logs =
        demoState.db.logs ++ [⟨"t1", "success", "实例创建成功", 9⟩] ∧
      lookupTimer (fireTimer demoState "t1" none 9) "t1" = none ∧
      (∀ (e2 : Option String) (now2 : Nat),
        fireTimer (fireTimer demoState "t1" none 9) "t1" e2 now2 =
          fireTimer demoState "t1" none 9) :=
  ⟨by decide, by decide,
   fireTimer_success_retires demoState "t1" demoTask 9 (by decide) (by decide)
     (by decide) (by decide)⟩

/-! ## C3: N consecutive failing firings -/

/-- State after `n` consecutive firings whose provisioning attempt fails
with raw error `e`. -/
def fireFailN (st : TaskServiceState) (taskID : String) (e : String) (now : Nat) :
    Nat → TaskServiceState
  | 0 => st
  | n + 1 => fireFailN (fireTimer st taskID (some e) now) taskID e now n

/-- Task record after `n` failing firings. -/
def taskAfterFails (t : OciCreateTask) (msg : String) (now : Nat) : Nat → OciCreateTask
  | 0 => t
  | n + 1 => failedTaskStep (taskAfterFails t msg now n) msg now

theorem taskAfterFails_comm (t : OciCreateTask) (msg : String) (now : Nat) (n : Nat) :
    taskAfterFails (failedTaskStep t msg now) msg now n =
      failedTaskStep (taskAfterFails t msg now n) msg now := by
  induction n with
  | zero => rfl
  | succ n ih => simp [taskAfterFails, ih]

theorem taskAfterFails_status (t : OciCreateTask) (msg : String) (now : Nat) (n : Nat) :
    (taskAfterFails t msg now n).status = t.status := by
  induction n with
  | zero => rfl
  | succ n ih => simp [taskAfterFails, failedTaskStep, ih]

theorem taskAfterFails_fields (t : OciCreateTask) (msg : String) (now : Nat) (n : Nat) :
    (taskAfterFails t msg now n).userID = t.userID ∧
    (taskAfterFails t msg now n).sshKeyID = t.sshKeyID ∧
    (taskAfterFails t msg now n).interval = t.interval ∧
    (taskAfterFails t msg now n).executeCount = t.executeCount + n ∧
    (taskAfterFails t msg now n).successCount = t.successCount := by
  induction n with
  | zero => simp [taskAfterFails]
  | succ n ih => simp [taskAfterFails, failedTaskStep, ih]; omega

theorem taskAfterFails_lastMessage (t : OciCreateTask) (msg : String) (now : Nat)
    (n : Nat) (hn : 0 < n) : (taskAfterFails t msg now n).lastMessage = msg := by
  cases n with
  | zero => omega
  | succ n => rfl

theorem fireFailN_spec (taskID : String) (e : String) (now : Nat) (n : Nat) :
    ∀ (st : TaskServiceState) (task : OciCreateTask),
    findTask st.db taskID = some task →
    task.status = "running" →
    (findUser st.db task.userID).isSome →
    (findSSHKey st.db task.sshKeyID).isSome →
    findTask (fireFailN st taskID e now n).db taskID =
      some (taskAfterFails task (extractOCIErrorMessage (some e)) now n) ∧
    (fireFailN st taskID e now n).db.logs = st.db.logs ++
      List.replicate n ⟨taskID, "error", extractOCIErrorMessage (some e), now⟩ ∧
    (0 < n → lookupTimer (fireFailN st taskID e now n) taskID =
      some ⟨clampInterval task.interval, true⟩) := by
  induction n with
  | zero =>
    intro st task hfind hstat hu hk
    refine ⟨hfind, by simp [fireFailN], by omega⟩
  | succ n ih =>
    intro st task hfind hstat hu hk
    obtain ⟨hfind', husers, hkeys, hlogs, htimer⟩ :=
      fireTimer_fail_step st taskID task e now hfind hstat hu hk
    set msg := extractOCIErrorMessage (some e) with hmsg
    set st1 := fireTimer st taskID (some e) now with hst1
    have hstat1 : (failedTaskStep task msg now).status = "running" := hstat
    have hu1 : (findUser st1.db (failedTaskStep task msg now).userID).isSome := by
      have : findUser st1.db task.userID = findUser st.db task.userID := by
        simp [findUser, husers]
      show (findUser st1.db task.userID).isSome
      rw [this]
      exact hu
    have hk1 : (findSSHKey st1.db (failedTaskStep task msg now).sshKeyID).isSome := by
      have : findSSHKey st1.db task.sshKeyID = findSSHKey st.db task.sshKeyID := by
        simp [findSSHKey, hkeys]
      show (findSSHKey st1.db task.sshKeyID).isSome
      rw [this]
      exact hk
    obtain ⟨ihfind, ihlogs, ihtimer⟩ :=
      ih st1 (failedTaskStep task msg now) hfind' hstat1 hu1 hk1
    refine ⟨?_, ?_, ?_⟩
    · show findTask (fireFailN st1 taskID e now n).db taskID = _
      rw [ihfind, taskAfterFails_comm]
      rfl
    · show (fireFailN st1 taskID e now n).db.logs = _
      rw [ihlogs, hlogs]
      simp [List.replicate_succ]
    · intro _
      cases Nat.eq_zero_or_pos n with
      | inl h0 =>
        show lookupTimer (fireFailN st1 taskID e now n) taskID = _
        rw [h0]
        exact htimer
      | inr hpos =>
        show lookupTimer (fireFailN st1 taskID e now n) taskID = _
        rw [ihtimer hpos]
        simp [failedTaskStep]

theorem filter_replicate_pos {α : Type} (p : α → Bool) (a : α) (n : Nat)
    (h : p a = true) : (List.replicate n a).filter p = List.replicate n a := by
  induction n with
  | zero => simp
  | succ n ih => simp [List.replicate_succ, List.filter_cons, h, ih]

/-- C3: starting from a fresh `running` task (zero executions, no log
entries) whose account and credential resolve, after `n ≥ 1` consecutive
failing firings the task is still `running`, its execution counter is
`n`, its per-task log consists of exactly `n` entries of kind `error`
each carrying the extracted message (also stored as the task's last
message), and after each of those firings an armed timer at the same
clamped interval is registered. -/
theorem recurring_failures_spec (st : TaskServiceState) (taskID : String)
    (task : OciCreateTask) (e : String) (now : Nat) (n : Nat)
    (hn : 0 < n)
    (hfind : findTask st.db taskID = some task)
    (hstat : task.status = "running")
    (hexec : task.executeCount = 0)
    (hu : (findUser st.db task.userID).isSome)
    (hk : (findSSHKey st.db task.sshKeyID).isSome)
    (hlogs : st.db.logs.filter (fun l => l.taskID == taskID) = []) :
    ∃ tN, findTask (fireFailN st taskID e now n).db taskID = some tN ∧
      tN.status = "running" ∧
      tN.executeCount = n ∧
      tN.lastMessage = extractOCIErrorMessage (some e) ∧
      (fireFailN st taskID e now n).db.logs.filter (fun l => l.taskID == taskID) =
        List.replicate n ⟨taskID, "error", extractOCIErrorMessage (some e), now⟩ ∧
      (∀ m, 0 < m → m ≤ n →
        lookupTimer (fireFailN st taskID e now m) taskID =
          some ⟨clampInterval task.interval, true⟩) := by
  obtain ⟨hfindN, hlogsN, _⟩ := fireFailN_spec taskID e now n st task hfind hstat hu hk
  refine ⟨taskAfterFails task (extractOCIErrorMessage (some e)) now n, hfindN, ?_, ?_, ?_, ?_, ?_⟩
  · rw [taskAfterFails_status]
    exact hstat
  · have := (taskAfterFails_fields task (extractOCIErrorMessage (some e)) now n).2.2.2.1
    rw [this, hexec]
    omega
  · exact taskAfterFails_lastMessage task _ now n hn
  · rw [hlogsN, List.filter_append, hlogs]
    rw [filter_replicate_pos _ _ n (by simp)]
    simp
  · intro m hm _
    exact (fireFailN_spec taskID e now m st task hfind hstat hu hk).2.2 hm

theorem recurring_failures_spec_witness :
    0 < 2 ∧ findTask demoState.db "t1" = some demoTask ∧ demoTask.executeCount = 0 ∧
    ∃ tN, findTask (fireFailN demoState "t1" "boom" 4 2).db "t1" = some tN ∧
      tN.status = "running" ∧
      tN.executeCount = 2 ∧
      tN.lastMessage = extractOCIErrorMessage (some "boom") ∧
      (fireFailN demoState "t1" "boom" 4 2).db.logs.filter (fun l => l.taskID == "t1") =
        List.replicate 2 ⟨"t1", "error", extractOCIErrorMessage (some "boom"), 4⟩ ∧
      (∀ m, 0 < m → m ≤ 2 →
        lookupTimer (fireFailN demoState "t1" "boom" 4 m) "t1" =
          some ⟨clampInterval demoTask.interval, true⟩) :=
  ⟨by decide, by decide, by decide,
   recurring_failures_spec demoState "t1" demoTask "boom" 4 2 (by decide) (by decide)
     (by decide) (by decide) (by decide) (by decide) (by decide)⟩

/-! ## C5: the one-shot execution path -/

/-- Task record after a failing one-shot execution: terminal `error`. -/
def onceFailedTask (t : OciCreateTask) (msg : String) (now : Nat) : OciCreateTask :=
  { t with executeCount := t.executeCount + 1, lastExecuteTime := some now,
           lastMessage := msg, status := "error" }

/-- State produced by a successful one-shot execution. -/
def onceSuccessState (st : TaskServiceState) (taskID : String) (task : OciCreateTask)
    (now : Nat) : TaskServiceState :=
  let db2 := logTaskExecution st.db taskID "success" taskSuccessMsg now
  { st with db := saveTask db2 (succeededTask task now) }

/-- State produced by a failing one-shot execution. -/
def onceFailState (st : TaskServiceState) (taskID : String) (task : OciCreateTask)
    (e : String) (now : Nat) : TaskServiceState :=
  let db2 := logTaskExecution st.db taskID "error" (extractOCIErrorMessage (some e)) now
  { st with db := saveTask db2 (onceFailedTask task (extractOCIErrorMessage (some e)) now) }

/-- C5: `executeOnce` on a task whose account and credential resolve: on
provisioning success it sets status `completed`, increments the success
counter by exactly one and returns no error; on provisioning failure it
sets status `error`, leaves the success counter unchanged and returns a
descriptive error; in neither case does it touch the timer table. -/
theorem executeTaskOnce_spec (st : TaskServiceState) (taskID : String)
    (task : OciCreateTask) (err : Option String) (now : Nat)
    (hfind : findTask st.db taskID = some task)
    (hu : (findUser st.db task.userID).isSome)
    (hk : (findSSHKey st.db task.sshKeyID).isSome) :
    (executeTaskOnce st taskID err now).1.taskTimers = st.taskTimers ∧
    (err = none →
      findTask (executeTaskOnce st taskID err now).1.db taskID =
        some (succeededTask task now) ∧
      (succeededTask task now).status = "completed" ∧
      (succeededTask task now).successCount = task.successCount + 1 ∧
      (executeTaskOnce st taskID err now).2 = none) ∧
    (∀ e, err = some e →
      findTask (executeTaskOnce st taskID err now).1.db taskID =
        some (onceFailedTask task (extractOCIErrorMessage (some e)) now) ∧
      (onceFailedTask task (extractOCIErrorMessage (some e)) now).status = "error" ∧
      (onceFailedTask task (extractOCIErrorMessage (some e)) now).successCount =
        task.successCount ∧
      (executeTaskOnce st taskID err now).2 =
        some (extractOCIErrorMessage (some e))) := by
  obtain ⟨u, hu'⟩ := Option.isSome_iff_exists.mp hu
  obtain ⟨k, hk'⟩ := Option.isSome_iff_exists.mp hk
  have hid : task.id = taskID := findTask_id st.db taskID task hfind
  cases err with
  | none =>
    have hun : executeTaskOnce st taskID none now =
        (onceSuccessState st taskID task now, none) := by
      simp only [executeTaskOnce, hfind, hu', hk']
      rfl
    refine ⟨by rw [hun]; rfl, fun _ => ⟨?_, rfl, rfl, by rw [hun]⟩, fun e he => by simp at he⟩
    rw [hun]
    show findTask (saveTask (logTaskExecution st.db taskID "success" taskSuccessMsg now)
      (succeededTask task now)) taskID = some (succeededTask task now)
    exact findTask_saveTask (logTaskExecution st.db taskID "success" taskSuccessMsg now)
      taskID task (succeededTask task now) hfind hid
  | some e =>
    have hun : executeTaskOnce st taskID (some e) now =
        (onceFailState st taskID task e now, some (extractOCIErrorMessage (some e))) := by
      simp only [executeTaskOnce, hfind, hu', hk']
      rfl
    refine ⟨by rw [hun]; rfl, fun h => by simp at h, fun e2 he2 => ?_⟩
    cases he2
    refine ⟨?_, rfl, rfl, by rw [hun]⟩
    rw [hun]
    show findTask (saveTask
      (logTaskExecution st.db taskID "error" (extractOCIErrorMessage (some e)) now)
      (onceFailedTask task (extractOCIErrorMessage (some e)) now)) taskID =
      some (onceFailedTask task (extractOCIErrorMessage (some e)) now)
    exact findTask_saveTask
      (logTaskExecution st.db taskID "error" (extractOCIErrorMessage (some e)) now)
      taskID task (onceFailedTask task (extractOCIErrorMessage (some e)) now) hfind hid

theorem executeTaskOnce_spec_witness :
    findTask demoState.db "t1" = some demoTask ∧
    ((executeTaskOnce demoState "t1" none 3).1.taskTimers = demoState.taskTimers ∧
      (none = (none : Option String) →
        findTask (executeTaskOnce demoState "t1" none 3).1.db "t1" =
          some (succeededTask demoTask 3) ∧
        (succeededTask demoTask 3).status = "completed" ∧
        (succeededTask demoTask 3).successCount = demoTask.successCount + 1 ∧
        (executeTaskOnce demoState "t1" none 3).2 = none) ∧
      (∀ e, (none : Option String) = some e →
        findTask (executeTaskOnce demoState "t1" none 3).1.db "t1" =
          some (onceFailedTask demoTask (extractOCIErrorMessage (some e)) 3) ∧
        (onceFailedTask demoTask (extractOCIErrorMessage (some e)) 3).status = "error" ∧
        (onceFailedTask demoTask (extractOCIErrorMessage (some e)) 3).successCount =
          demoTask.successCount ∧
        (executeTaskOnce demoState "t1" none 3).2 =
          some (extractOCIErrorMessage (some e)))) :=
  ⟨by decide,
   executeTaskOnce_spec demoState "t1" demoTask none 3 (by decide) (by decide) (by decide)⟩

/-! ## C6: at most one timer per task identifier -/

/-- Number of timer-table entries registered under an identifier. -/
def countKey (l : List (String × GoTimer)) (taskID : String) : Nat :=
  (l.filter (fun p => p.1 == taskID)).length

/-- The claimed invariant: the timer table holds at most one entry for
any task identifier. -/
def TimersAtMostOne (st : TaskServiceState) : Prop :=
  ∀ taskID : String, countKey st.taskTimers taskID ≤ 1

theorem countKey_filter_le (l : List (String × GoTimer)) (q : String × GoTimer → Bool)
    (taskID : String) : countKey (l.filter q) taskID ≤ countKey l taskID := by
  unfold countKey
  exact List.Sublist.length_le (List.Sublist.filter _ (List.filter_sublist l))

theorem countKey_filter_ne (l : List (String × GoTimer)) (taskID : String) :
    countKey (l.filter (fun p => !(p.1 == taskID))) taskID = 0 := by
  unfold countKey
  rw [List.length_eq_zero, List.filter_eq_nil_iff]
  intro p hp
  have := List.of_mem_filter hp
  simp at this
  simp [this]

theorem countKey_append (l1 l2 : List (String × GoTimer)) (taskID : String) :
    countKey (l1 ++ l2) taskID = countKey l1 taskID + countKey l2 taskID := by
  unfold countKey
  rw [List.filter_append, List.length_append]

theorem countKey_map_disarm (l : List (String × GoTimer)) (taskID other : String) :
    countKey (l.map (fun p => if p.1 == taskID then (p.1, (⟨p.2.interval, false⟩ : GoTimer))
      else p)) other = countKey l other := by
  induction l with
  | nil => rfl
  | cons a l ih =>
    have hhead : (if a.1 == taskID then (a.1, (⟨a.2.interval, false⟩ : GoTimer)) else a).1 =
        a.1 := by
      split <;> rfl
    unfold countKey at ih ⊢
    simp only [List.map_cons, List.filter_cons, hhead]
    cases hc2 : (a.1 == other) with
    | false => simpa [hc2] using ih
    | true =>
      simp only [eq_self_iff_true, if_true, List.length_cons]
      rw [ih]

theorem scheduleTask_at_most_one (st : TaskServiceState) (task : OciCreateTask)
    (h : TimersAtMostOne st) : TimersAtMostOne (scheduleTask st task) := by
  intro other
  show countKey (st.taskTimers.filter (fun p => !(p.1 == task.id)) ++
    [(task.id, ⟨clampInterval task.interval, true⟩)]) other ≤ 1
  rw [countKey_append]
  by_cases ho : other = task.id
  · subst ho
    rw [countKey_filter_ne]
    simp [countKey, List.filter]
  · have : countKey [(task.id, (⟨clampInterval task.interval, true⟩ : GoTimer))] other = 0 := by
      have : (task.id == other) = false := by
        simp
        exact fun hx => ho hx.symm
      simp [countKey, List.filter, this]
    rw [this]
    have hle := countKey_filter_le st.taskTimers (fun p => !(p.1 == task.id)) other
    have := h other
    omega

theorem removeTaskTimer_at_most_one (st : TaskServiceState) (taskID : String)
    (h : TimersAtMostOne st) : TimersAtMostOne (removeTaskTimer st taskID) := by
  intro other
  show countKey (st.taskTimers.filter (fun p => !(p.1 == taskID))) other ≤ 1
  exact le_trans (countKey_filter_le _ _ _) (h other)

theorem disarmTimer_at_most_one (st : TaskServiceState) (taskID : String)
    (h : TimersAtMostOne st) : TimersAtMostOne (disarmTimer st taskID) := by
  intro other
  show countKey (st.taskTimers.map _) other ≤ 1
  rw [countKey_map_disarm]
  exact h other

theorem timers_congr_at_most_one (st st2 : TaskServiceState)
    (heq : st2.taskTimers = st.taskTimers) (h : TimersAtMostOne st) :
    TimersAtMostOne st2 := by
  intro other
  show countKey st2.taskTimers other ≤ 1
  rw [heq]
  exact h other

theorem executeTask_at_most_one (st : TaskServiceState) (taskID : String)
    (e : Option String) (now : Nat) (h : TimersAtMostOne st) :
    TimersAtMostOne (executeTask st taskID e now) := by
  unfold executeTask
  cases hf : findTask st.db taskID with
  | none => exact h
  | some task =>
    show TimersAtMostOne (executeTaskFound st taskID task e now)
    unfold executeTaskFound
    split
    · exact h
    · cases hu : findUser st.db task.userID with
      | none => exact timers_congr_at_most_one st _ rfl h
      | some u =>
        cases hk : findSSHKey st.db task.sshKeyID with
        | none => exact timers_congr_at_most_one st _ rfl h
        | some k =>
          show TimersAtMostOne (executeTaskAttempt st taskID task e now)
          unfold executeTaskAttempt
          cases e with
          | some e2 =>
            dsimp only
            split
            · exact scheduleTask_at_most_one _ _ (timers_congr_at_most_one st _ rfl h)
            · exact removeTaskTimer_at_most_one _ _ (timers_congr_at_most_one st _ rfl h)
          | none =>
            dsimp only
            split
            · exact scheduleTask_at_most_one _ _ (timers_congr_at_most_one st _ rfl h)
            · exact removeTaskTimer_at_most_one _ _ (timers_congr_at_most_one st _ rfl h)

theorem foldl_scheduleTask_at_most_one (l : List OciCreateTask) :
    ∀ st : TaskServiceState, TimersAtMostOne st → TimersAtMostOne (l.foldl scheduleTask st) := by
  induction l with
  | nil => intro st h; exact h
  | cons t l ih => intro st h; exact ih _ (scheduleTask_at_most_one st t h)

/-- C6: every scheduler-facing operation — service start and stop, task
creation, per-task start, stop and delete, and a timer firing — preserves
the invariant that the timer table registers at most one timer per task
identifier: registration first drops any existing timer for the
identifier, and removal deletes the timer it stops. -/
theorem applyOp_at_most_one (st : TaskServiceState) (op : SchedOp)
    (h : TimersAtMostOne st) : TimersAtMostOne (applyOp st op) := by
  cases op with
  | startSvc =>
    show TimersAtMostOne (startService st)
    unfold startService
    split
    · exact h
    · exact foldl_scheduleTask_at_most_one _ _ (timers_congr_at_most_one st _ rfl h)
  | stopSvc =>
    show TimersAtMostOne (stopService st)
    unfold stopService
    split
    · intro taskID
      show countKey [] taskID ≤ 1
      simp [countKey]
    · exact h
  | add task =>
    show TimersAtMostOne (addTask st task)
    unfold addTask
    split
    · exact h
    · split
      · exact scheduleTask_at_most_one _ _ (timers_congr_at_most_one st _ rfl h)
      · exact timers_congr_at_most_one st _ rfl h
  | startT taskID =>
    show TimersAtMostOne (startTask st taskID)
    unfold startTask
    cases hf : findTask st.db taskID with
    | none => exact h
    | some task => exact scheduleTask_at_most_one _ _ (timers_congr_at_most_one st _ rfl h)
  | stopT taskID =>
    show TimersAtMostOne (stopTask st taskID)
    unfold stopTask
    exact removeTaskTimer_at_most_one _ _ (timers_congr_at_most_one st _ rfl h)
  | deleteT taskID =>
    show TimersAtMostOne (deleteTask st taskID)
    unfold deleteTask
    exact timers_congr_at_most_one _ _ rfl (removeTaskTimer_at_most_one st taskID h)
  | fire taskID e now =>
    show TimersAtMostOne (fireTimer st taskID e now)
    unfold fireTimer
    exact executeTask_at_most_one _ taskID e now (disarmTimer_at_most_one st taskID h)

theorem applyOp_at_most_one_witness :
    TimersAtMostOne demoState ∧
    TimersAtMostOne (applyOp demoState (SchedOp.startT "t1")) := by
  have h : TimersAtMostOne demoState := by
    intro taskID
    show countKey [("t1", ⟨30, true⟩)] taskID ≤ 1
    unfold countKey
    rw [List.filter]
    split <;> simp
  exact ⟨h, applyOp_at_most_one demoState (SchedOp.startT "t1") h⟩

/-! ## Telegram control loop (`telegram_service.go`)

An inbound update carries an optional plain message and an optional
callback (button-press) event; identifiers are integers rendered with
`%d` for comparison against the configured chat identity string.
`handleUpdate` is modelled as the list of transport actions it performs,
in order; invoking one of the six snapshot-rendering functions of the
dispatcher is recorded as a `renderSnapshot` action. -/

structure TgMessage where
  messageID : Int
  fromID : Int
  chatID : Int
  text : String
deriving DecidableEq

structure TgCallback where
  id : String
  fromID : Int
  msgMessageID : Int
  msgChatID : Int
  data : String
deriving DecidableEq

structure TelegramUpdate where
  updateID : Int
  message : Option TgMessage
  callbackQuery : Option TgCallback
deriving DecidableEq

inductive BotAction where
  | sendText (chatID text : String) : BotAction
  | sendMenu (chatID text : String) : BotAction
  | answerCallback (callbackID : String) : BotAction
  | renderSnapshot (name : String) : BotAction
  | editMessage (chatID : String) (messageID : Int) : BotAction
  | deleteMessage (chatID : String) (messageID : Int) : BotAction
deriving DecidableEq

/-- The fixed rejection reply sent to plain messages from a
non-matching chat. -/
def unauthorizedReply : String :=
  "❌ 无权限操作此机器人🤖\n项目地址: https://github.com/adiecho/oci-panel"

def menuText : String := "请选择需要执行的操作："

/-- Model of `handleCallback`: each button datum maps to one snapshot-rendering
function followed by an in-place edit, except `cancel`, which deletes the
message; unknown data does nothing. -/
def handleCallback (cb : TgCallback) : List BotAction :=
  let chatID := toString cb.msgChatID
  if cb.data == "check_alive" then
    [.renderSnapshot "check_alive", .editMessage chatID cb.msgMessageID]
  else if cb.data == "task_details" then
    [.renderSnapshot "task_details", .editMessage chatID cb.msgMessageID]
  else if cb.data == "instance_stats" then
    [.renderSnapshot "instance_stats", .editMessage chatID cb.msgMessageID]
  else if cb.data == "config_list" then
    [.renderSnapshot "config_list", .editMessage chatID cb.msgMessageID]
  else if cb.data == "version_info" then
    [.renderSnapshot "version_info", .editMessage chatID cb.msgMessageID]
  else if cb.data == "traffic_stats" then
    [.renderSnapshot "traffic_stats", .editMessage chatID cb.msgMessageID]
  else if cb.data == "cancel" then
    [.deleteMessage chatID cb.msgMessageID]
  else
    []

/-- Callback half of `handleUpdate`: the event is acknowledged first in
both branches; only the authorized branch dispatches. -/
def handleCallbackHalf (cfgChatID : String) (u : TelegramUpdate) : List BotAction :=
  match u.callbackQuery with
  | none => []
  | some cb =>
    if toString cb.fromID != cfgChatID then
      [.answerCallback cb.id]
    else
      .answerCallback cb.id :: handleCallback cb

/-- Model of `handleUpdate`: a plain message is authorized by its chat identifier
(a mismatch draws the fixed rejection reply and returns, skipping the
callback branch); `/start` sends the button menu; a callback event is
authorized by the presser's identifier. -/
def handleUpdate (cfgChatID : String) (u : TelegramUpdate) : List BotAction :=
  match u.message with
  | some m =>
    if toString m.chatID != cfgChatID then
      [.sendText (toString m.chatID) unauthorizedReply]
    else
      (if m.text == "/start" then [.sendMenu (toString m.chatID) menuText] else []) ++
        handleCallbackHalf cfgChatID u
  | none => handleCallbackHalf cfgChatID u

/-- One iteration of the body of the poll loop: handle the update, then
set the offset to the update's identifier plus one. -/
def pollLoopBody (cfgChatID : String) (acc : Int × List BotAction)
    (u : TelegramUpdate) : Int × List BotAction :=
  (u.updateID + 1, acc.2 ++ handleUpdate cfgChatID u)

/-- One poll cycle over a received batch: process each update in arrival
order, advancing the offset after each. -/
def pollCycle (cfgChatID : String) (offset : Int) (updates : List TelegramUpdate) :
    Int × List BotAction :=
  updates.foldl (pollLoopBody cfgChatID) (offset, [])

theorem pollCycle_fst_aux (cfgChatID : String) :
    ∀ (l : List TelegramUpdate) (h : l ≠ []) (offset : Int) (acts : List BotAction),
    (l.foldl (pollLoopBody cfgChatID) (offset, acts)).1 = (l.getLast h).updateID + 1 := by
  intro l
  induction l with
  | nil => intro h; exact absurd rfl h
  | cons a l ih =>
    intro h offset acts
    cases l with
    | nil => rfl
    | cons b l2 =>
      show ((b :: l2).foldl (pollLoopBody cfgChatID)
        (pollLoopBody cfgChatID (offset, acts) a)).1 = _
      rw [ih (List.cons_ne_nil b l2)]
      rfl

theorem pollCycle_snd_aux (cfgChatID : String) :
    ∀ (l : List TelegramUpdate) (offset : Int) (acts : List BotAction),
    (l.foldl (pollLoopBody cfgChatID) (offset, acts)).2 =
      acts ++ (l.map (handleUpdate cfgChatID)).flatten := by
  intro l
  induction l with
  | nil => intro offset acts; simp
  | cons a l ih =>
    intro offset acts
    show (l.foldl (pollLoopBody cfgChatID) (pollLoopBody cfgChatID (offset, acts) a)).2 = _
    rw [ih]
    simp [pollLoopBody]

theorem updateID_le_getLast :
    ∀ (l : List TelegramUpdate) (h : l ≠ [])
    (hp : l.Pairwise (fun a b => a.updateID ≤ b.updateID)) (u : TelegramUpdate),
    u ∈ l → u.updateID ≤ (l.getLast h).updateID := by
  intro l
  induction l with
  | nil => intro h; exact absurd rfl h
  | cons a l ih =>
    intro h hp u hu
    cases l with
    | nil =>
      rcases List.mem_singleton.mp hu with rfl
      exact le_refl _
    | cons b l2 =>
      have hlast : (a :: b :: l2).getLast h = (b :: l2).getLast (List.cons_ne_nil b l2) := rfl
      rw [hlast]
      rcases List.mem_cons.mp hu with rfl | hu2
      · have := (List.pairwise_cons.mp hp).1 ((b :: l2).getLast (List.cons_ne_nil b l2))
          (List.getLast_mem (List.cons_ne_nil b l2))
        exact this
      · exact ih (List.cons_ne_nil b l2) (List.pairwise_cons.mp hp).2 u hu2

/-- C8: over one received batch the loop handles each update in arrival
order, and the final offset is the last update's identifier plus one;
when the batch identifiers arrive in nondecreasing order (as the
long-poll transport delivers them) the final offset strictly exceeds
every identifier in the batch, so no identifier is fetched again. -/
theorem pollCycle_spec (cfgChatID : String) (offset : Int)
    (updates : List TelegramUpdate) (hne : updates ≠ [])
    (hp : updates.Pairwise (fun a b => a.updateID ≤ b.updateID)) :
    (pollCycle cfgChatID offset updates).1 = (updates.getLast hne).updateID + 1 ∧
    (∀ u ∈ updates, u.updateID < (pollCycle cfgChatID offset updates).1) ∧
    (pollCycle cfgChatID offset updates).2 =
      (updates.map (handleUpdate cfgChatID)).flatten := by
  refine ⟨pollCycle_fst_aux cfgChatID updates hne offset [], ?_, ?_⟩
  · intro u hu
    show u.updateID < (updates.foldl (pollLoopBody cfgChatID) (offset, [])).1
    rw [pollCycle_fst_aux cfgChatID updates hne offset []]
    have := updateID_le_getLast updates hne hp u hu
    omega
  · rw [show pollCycle cfgChatID offset updates =
      updates.foldl (pollLoopBody cfgChatID) (offset, []) from rfl]
    rw [pollCycle_snd_aux cfgChatID updates offset []]
    simp

/-- Concrete batch with identifiers 5, 6, 7 (plain updates with no
message and no callback). -/
def batch567 : List TelegramUpdate :=
  [⟨5, none, none⟩, ⟨6, none, none⟩, ⟨7, none, none⟩]

theorem pollCycle_spec_witness :
    batch567 ≠ [] ∧
    batch567.Pairwise (fun a b => a.updateID ≤ b.updateID) ∧
    (pollCycle "123" 0 batch567).1 = 8 := by
  have hne : batch567 ≠ [] := by decide
  have hp : batch567.Pairwise (fun a b => a.updateID ≤ b.updateID) := by
    decide
  refine ⟨hne, hp, ?_⟩
  have h1 := (pollCycle_spec "123" 0 batch567 hne hp).1
  have h2 : (batch567.getLast hne).updateID + 1 = 8 := rfl
  exact h1.trans h2

/-! ## C9: authorization of inbound updates

The plain-message branch authorizes by the message's **chat** identifier
(`update.Message.Chat.ID`), not the sender's identifier
(`update.Message.From.ID`); the callback branch authorizes by the
presser's identifier.  A plain message whose sender differs from the
configured identity but whose chat matches it is therefore handled
normally and draws no rejection reply, refuting the claim as stated. -/

/-- A `/start` message sent by user 999 inside chat 123 (the configured
chat): the sender does not match the configured identity. -/
def straySenderUpdate : TelegramUpdate :=
  ⟨1, some ⟨10, 999, 123, "/start"⟩, none⟩

/-- C9 counterexample: with configured identity "123", the update above
comes from sender 999 ≠ 123, yet handling it sends the command menu and
no rejection reply — the claim that every update from a non-matching
sender draws the fixed rejection reply is false on the code. -/
theorem handleUpdate_sender_mismatch_counterexample :
    (straySenderUpdate.message.map TgMessage.fromID = some 999 ∧
      toString (999 : Int) ≠ "123") ∧
    handleUpdate "123" straySenderUpdate = [BotAction.sendMenu "123" menuText] ∧
    BotAction.sendText "123" unauthorizedReply ∉ handleUpdate "123" straySenderUpdate ∧
    BotAction.sendText "999" unauthorizedReply ∉ handleUpdate "123" straySenderUpdate := by
  decide

/-- C9 (amended): a plain text message whose **chat** identifier does not
match the configured identity draws exactly the fixed rejection reply and
nothing else; a button-press event whose **presser** identifier does not
match is acknowledged at the transport level with no reply and no
dispatch; and no unauthorized button press ever reaches a
snapshot-rendering function. -/
theorem handleUpdate_authorization (cfgChatID : String) (u : TelegramUpdate) :
    (∀ m, u.message = some m → toString m.chatID ≠ cfgChatID →
      handleUpdate cfgChatID u =
        [BotAction.sendText (toString m.chatID) unauthorizedReply]) ∧
    (∀ cb, u.message = none → u.callbackQuery = some cb →
      toString cb.fromID ≠ cfgChatID →
      handleUpdate cfgChatID u = [BotAction.answerCallback cb.id]) ∧
    (∀ cb, u.callbackQuery = some cb → toString cb.fromID ≠ cfgChatID →
      ∀ name, BotAction.renderSnapshot name ∉ handleUpdate cfgChatID u) := by
  refine ⟨?_, ?_, ?_⟩
  · intro m hm hne
    simp [handleUpdate, hm, hne]
  · intro cb hm hcb hne
    simp [handleUpdate, handleCallbackHalf, hm, hcb, hne]
  · intro cb hcb hne name
    cases hm : u.message with
    | none => simp [handleUpdate, handleCallbackHalf, hm, hcb, hne]
    | some m =>
      by_cases hchat : toString m.chatID = cfgChatID
      · simp [handleUpdate, handleCallbackHalf, hm, hcb, hne, hchat]
      · simp [handleUpdate, hm, hchat]

/-- A plain message from chat 999 with configured identity "123". -/
def strayChatUpdate : TelegramUpdate :=
  ⟨1, some ⟨10, 999, 999, "hi"⟩, none⟩

/-- A button press by user 999 with configured identity "123". -/
def strayCallbackUpdate : TelegramUpdate :=
  ⟨2, none, some ⟨"cbid", 999, 7, 123, "check_alive"⟩⟩

theorem handleUpdate_authorization_witness :
    handleUpdate "123" strayChatUpdate =
      [BotAction.sendText "999" unauthorizedReply] ∧
    handleUpdate "123" strayCallbackUpdate = [BotAction.answerCallback "cbid"] :=
  ⟨(handleUpdate_authorization "123" strayChatUpdate).1 ⟨10, 999, 999, "hi"⟩ rfl
      (by decide),
   (handleUpdate_authorization "123" strayCallbackUpdate).2.1
      ⟨"cbid", 999, 7, 123, "check_alive"⟩ rfl rfl (by decide)⟩

/-! ## C10: bot-token masking round trip (`telegram_controller.go`)

`GetConfig` masks the stored token: longer than 10 characters it becomes
first-6 ++ "****" ++ last-4, a non-empty token of at most 10 characters
becomes "****", an empty token stays empty.  `UpdateConfig` keeps the
currently stored token when the submitted token field is empty or is
longer than 4 characters and ends in "****"; otherwise it stores the
submitted value.  Tokens are modelled as character lists (the Go code
slices bytes; bot tokens are ASCII). -/

def maskChars : List Char := ['*', '*', '*', '*']

/-- The mask applied by `GetConfig`. -/
def maskToken (botToken : List Char) : List Char :=
  if botToken.length > 10 then
    botToken.take 6 ++ maskChars ++ botToken.drop (botToken.length - 4)
  else if botToken ≠ [] then maskChars
  else []

/-- The token `UpdateConfig` actually stores, given the currently stored
token and the submitted token field. -/
def effectiveToken (currentToken reqToken : List Char) : List Char :=
  if reqToken = [] ∨ (reqToken.length > 4 ∧ reqToken.drop (reqToken.length - 4) = maskChars)
  then currentToken
  else reqToken

/-- C10 counterexample: a stored token of at most 10 characters (here
"secret") is masked as exactly "****"; resubmitting that mask — which is
empty-or-ends-in-"****" as the claim hypothesises — fails the guard's
`length > 4` test and overwrites the stored token with "****". -/
theorem maskedToken_roundtrip_counterexample :
    maskToken ['s', 'e', 'c', 'r', 'e', 't'] = maskChars ∧
    (maskToken ['s', 'e', 'c', 'r', 'e', 't']).drop
      ((maskToken ['s', 'e', 'c', 'r', 'e', 't']).length - 4) = maskChars ∧
    effectiveToken ['s', 'e', 'c', 'r', 'e', 't']
      (maskToken ['s', 'e', 'c', 'r', 'e', 't']) ≠ ['s', 'e', 'c', 'r', 'e', 't'] := by
  decide

/-- C10 (amended): an update whose token field is empty, or is longer
than 4 characters and ends in "****", leaves the stored bot token
unchanged; the unguarded case is exactly a submitted token of at most 4
characters, such as the 4-character mask "****" itself. -/
theorem effectiveToken_preserves (currentToken reqToken : List Char)
    (h : reqToken = [] ∨
      (reqToken.length > 4 ∧ reqToken.drop (reqToken.length - 4) = maskChars)) :
    effectiveToken currentToken reqToken = currentToken := by
  unfold effectiveToken
  rw [if_pos h]

theorem effectiveToken_preserves_witness :
    (['x', '*', '*', '*', '*'] = ([] : List Char) ∨
      (['x', '*', '*', '*', '*'].length > 4 ∧
        ['x', '*', '*', '*', '*'].drop (['x', '*', '*', '*', '*'].length - 4) = maskChars)) ∧
    effectiveToken ['r', 'e', 'a', 'l', 't', 'o', 'k'] ['x', '*', '*', '*', '*'] =
      ['r', 'e', 'a', 'l', 't', 'o', 'k'] :=
  ⟨by decide, effectiveToken_preserves ['r', 'e', 'a', 'l', 't', 'o', 'k']
    ['x', '*', '*', '*', '*'] (by decide)⟩

end OCIPanel
